import Mathlib

/-!
Verification development for the EmoGuchi room/game engine.

The repository ships the TypeScript frontend (types, socket handlers, pages)
under `src/frontend` and `src/unnamed/part_006..part_014`; the backend room
engine itself (Room State Machine, Session Store, Phrase Cache, Event
Dispatcher) is not part of the source tree, so those components are modelled
from the specification, while every frontend-side definition below is a
direct shallow embedding of the cited TypeScript source.
-/

namespace EmoGuchi

/-- GameMode from frontend/types/game.ts: basic | advanced | wheel. -/
inductive GameMode
  | basic
  | advanced
  | wheel
deriving DecidableEq

/-- VoteType from frontend/types/game.ts: 4choice | 8choice | wheel. -/
inductive VoteType
  | fourChoice
  | eightChoice
  | wheel
deriving DecidableEq

/-- SpeakerOrder from frontend/types/game.ts: random | sequential. -/
inductive SpeakerOrder
  | random
  | sequential
deriving DecidableEq

/-- GamePhase from frontend/types/game.ts: waiting | in_round | result | closed. -/
inductive GamePhase
  | waiting
  | in_round
  | result
  | closed
deriving DecidableEq

/-- RoomConfig from frontend/types/game.ts. -/
structure RoomConfig where
  mode : GameMode
  vote_type : VoteType
  speaker_order : SpeakerOrder
  vote_timeout : Nat
  max_rounds : Nat
deriving DecidableEq

/-- EmotionChoice from frontend/types/game.ts: `{ id, name }`. -/
structure EmotionChoice where
  id : String
  name : String
deriving DecidableEq

/-- Client-side Round from frontend/types/game.ts (optional fields as Option). -/
structure Round where
  id : String
  phrase : String
  emotion_id : String
  speaker_name : String
  voting_choices : Option (List EmotionChoice)
  wheel_mode : Option Bool
deriving DecidableEq

/-- RoomState from frontend/types/game.ts. -/
structure RoomState where
  roomId : String
  players : List String
  phase : GamePhase
  config : RoomConfig
  currentSpeaker : Option String
deriving DecidableEq

/-- Payload of the round_start socket event (frontend/types/game.ts
SocketEvents.round_start): `{ roundId, phrase, speakerName, votingChoices? }`. -/
structure RoundStartPayload where
  roundId : String
  phrase : String
  speakerName : String
  votingChoices : Option (List EmotionChoice)
deriving DecidableEq

/-- Payload of the speaker_emotion socket event (frontend/types/game.ts
SocketEvents.speaker_emotion): `{ roundId, emotionId, emotionName? }`. -/
structure SpeakerEmotionPayload where
  roundId : String
  emotionId : String
  emotionName : Option String
deriving DecidableEq

/-- RoundResult from frontend/types/game.ts lines 47-59, with the exact field
names of the source interface; optional fields are embedded as Option. -/
structure RoundResult where
  round_id : String
  correct_emotion : String
  correctEmotionId : Option String
  speaker_name : String
  scores : List (String × Int)
  votes : List (String × String)
  isGameComplete : Option Bool
  completedRounds : Option Nat
  maxRounds : Option Nat
  completedCycles : Option Nat
  maxCycles : Option Nat
deriving DecidableEq

/-- Field names of the RoundResult interface as declared in
frontend/types/game.ts lines 47-59, in declaration order. -/
def roundResultFields : List String :=
  ["round_id", "correct_emotion", "correctEmotionId", "speaker_name",
   "scores", "votes", "isGameComplete", "completedRounds", "maxRounds",
   "completedCycles", "maxCycles"]

/-- Field names the specification table (spec section 6) claims for the
round_result payload, in the order the spec lists them. -/
def specRoundResultFields : List String :=
  ["roundId", "correctEmotion", "correctEmotionId", "speakerName",
   "scores", "votes", "isGameComplete", "completedRounds", "maxRounds"]

/-- Field names of the amended round_result payload claim: the source keeps
snake_case names for round_id, correct_emotion and speaker_name and adds the
optional completedCycles and maxCycles fields. -/
def amendedRoundResultFields : List String :=
  ["round_id", "correct_emotion", "correctEmotionId", "speaker_name",
   "scores", "votes", "isGameComplete", "completedRounds", "maxRounds",
   "completedCycles", "maxCycles"]

/-- round_start handler of frontend/hooks/useSocket.ts lines 54-63: builds
the client Round with emotion_id set to the empty string (hidden from
listeners) and no voting choices. -/
def roundStartHandlerHooks (data : RoundStartPayload) : Round :=
  { id := data.roundId
    phrase := data.phrase
    emotion_id := ""
    speaker_name := data.speakerName
    voting_choices := none
    wheel_mode := none }

/-- round_start handler of the current useSocket hook (src/unnamed/part_014):
builds the client Round with emotion_id hidden and voting_choices defaulted
to the empty list when the payload carries none
(`data.votingChoices || []`). -/
def roundStartHandler (data : RoundStartPayload) : Round :=
  { id := data.roundId
    phrase := data.phrase
    emotion_id := ""
    speaker_name := data.speakerName
    voting_choices := some (data.votingChoices.getD [])
    wheel_mode := none }

/-- Static fallback basic choices of RoomPage (src/unnamed/part_007
lines 144-149). -/
def basicChoices : List EmotionChoice :=
  [{ id := "joy", name := "喜び" },
   { id := "anger", name := "怒り" },
   { id := "sadness", name := "悲しみ" },
   { id := "surprise", name := "驚き" }]

/-- Extra choices appended for 8choice rooms (src/unnamed/part_007
lines 151-159). -/
def advancedExtraChoices : List EmotionChoice :=
  [{ id := "fear", name := "恐れ" },
   { id := "disgust", name := "嫌悪" },
   { id := "trust", name := "信頼" },
   { id := "anticipation", name := "期待" }]

/-- Fallback branch of the emotionChoices computation in RoomPage
(src/unnamed/part_007 lines 142-162): basic four choices, extended by four
more when the room config vote_type is 8choice. -/
def fallbackChoices (roomState : Option RoomState) : List EmotionChoice :=
  match roomState with
  | some rs =>
      if rs.config.vote_type = VoteType.eightChoice then
        basicChoices ++ advancedExtraChoices
      else
        basicChoices
  | none => basicChoices

/-- emotionChoices computation of RoomPage (src/unnamed/part_007
lines 139-162): dynamic voting choices of the current round when present and
non-empty, otherwise the static fallback. -/
def emotionChoices (currentRound : Option Round) (roomState : Option RoomState) :
    List EmotionChoice :=
  match currentRound with
  | some r =>
      match r.voting_choices with
      | some vcs => if vcs.length > 0 then vcs else fallbackChoices roomState
      | none => fallbackChoices roomState
  | none => fallbackChoices roomState

/-- Response body of POST /api/v1/rooms as consumed by the createRoom
handlers (src/unnamed/part_009 lines 40-49, part_010 lines 93-102,
part_011): `{ roomId, hostToken, isExistingRoom }`. -/
structure CreateRoomResponse where
  roomId : String
  hostToken : String
  isExistingRoom : Bool
deriving DecidableEq

/-- Client navigation outcome of a successful room-creation request. -/
inductive ClientNav
  | enterAsHost (roomId : String) (storedHostToken : String)
  | enterAsParticipant (roomId : String)
deriving DecidableEq

/-- Success-path handling of the createRoom response in src/unnamed/part_010
lines 93-102 (same in part_009 and part_011): when isExistingRoom is false
the client stores the host token and navigates as host; for an existing room
it joins as a regular participant and stores no token. -/
def handleCreateRoomSuccess (data : CreateRoomResponse) : ClientNav :=
  if !data.isExistingRoom then
    ClientNav.enterAsHost data.roomId data.hostToken
  else
    ClientNav.enterAsParticipant data.roomId

/-- Player as held by the server, from frontend/types/game.ts Player and
spec section 3: session id, display name, cumulative score, host flag,
connected flag. -/
structure Player where
  id : String
  name : String
  score : Nat
  is_host : Bool
  is_connected : Bool
deriving DecidableEq

/-- Modelled from the spec: the server-side Round of section 3 (the backend
Round class is not in src/): round id, phrase, target emotion id, speaker
session id, voting choices, and the voter-to-emotion vote map, kept as an
association list with at most one entry per voter. -/
structure ServerRound where
  id : String
  phrase : String
  emotionId : String
  speakerId : String
  votingChoices : List EmotionChoice
  votes : List (String × String)
deriving DecidableEq

/-- Modelled from the spec: the Room aggregate of section 3 (the backend Room
class is not in src/): roster in insertion order, configuration, phase,
nullable current round, round/cycle counters, and the index of the previous
speaker in the roster for the sequential speaker-order policy. -/
structure ServerRoom where
  id : String
  players : List Player
  config : RoomConfig
  phase : GamePhase
  currentRound : Option ServerRound
  completedRounds : Nat
  completedCycles : Nat
  lastSpeakerIdx : Option Nat
deriving DecidableEq

/-- Error taxonomy of spec section 7 (backend error codes are not in src/). -/
inductive RoomError
  | NotFound
  | Forbidden
  | Conflict
  | NotEnoughPlayers
  | RoomFull
  | StaleRound
  | PayloadTooLarge
deriving DecidableEq

/-- Room capacity, from MAX_PLAYERS_PER_ROOM=8 in the environment
configuration (src/unnamed/part_000). -/
def maxPlayers : Nat := 8

/-- Look a player up by session id. -/
def ServerRoom.findPlayer (r : ServerRoom) (sessionId : String) : Option Player :=
  r.players.find? (fun p => p.id = sessionId)

/-- The requester holds the host flag. -/
def ServerRoom.isHostSession (r : ServerRoom) (sessionId : String) : Bool :=
  match r.findPlayer sessionId with
  | some p => p.is_host
  | none => false

/-- Roster indices of connected players, in roster order. -/
def ServerRoom.eligibleIdxs (r : ServerRoom) : List Nat :=
  (List.range r.players.length).filter
    (fun i => ((r.players.get? i).map Player.is_connected).getD false)

/-- Number of connected players. -/
def ServerRoom.connectedCount (r : ServerRoom) : Nat :=
  r.eligibleIdxs.length

/-- Modelled from the spec: record or overwrite a voter's vote (section 3
Round invariant — a second vote from the same player overwrites, never
duplicates). -/
def recordVote : List (String × String) → String → String → List (String × String)
  | [], voter, emo => [(voter, emo)]
  | (v, e) :: rest, voter, emo =>
      if v = voter then (voter, emo) :: rest
      else (v, e) :: recordVote rest voter emo

/-- Voters whose submitted emotion id equals the round's target emotion id. -/
def correctVoters (rd : ServerRound) : List String :=
  (rd.votes.filter (fun v => v.2 = rd.emotionId)).map Prod.fst

/-- Modelled from the spec: score delta applied on round close (section 4.1
round close): the speaker gains one point per correct voter, a correct
listener gains one point, every other player gains nothing. -/
def scoreDelta (rd : ServerRound) (p : Player) : Nat :=
  if p.id = rd.speakerId then (correctVoters rd).length
  else if rd.votes.lookup p.id = some rd.emotionId then 1
  else 0

/-- Modelled from the spec: internal round close (section 4.1), triggered by
unanimous votes, by vote timeout, or by the speaker leaving: applies the
score deltas, clears the round, advances the counters and moves the room to
the result phase. Possible only while a round is open. -/
def ServerRoom.closeRound (r : ServerRoom) : Except RoomError ServerRoom :=
  match r.currentRound with
  | none => Except.error RoomError.StaleRound
  | some rd =>
      let players := r.players.map (fun p => { p with score := p.score + scoreDelta rd p })
      let rounds := r.completedRounds + 1
      let cycles := rounds / max r.players.length 1
      Except.ok { r with
        players := players
        currentRound := none
        phase := GamePhase.result
        completedRounds := rounds
        completedCycles := cycles }

/-- Modelled from the spec: the vote-timeout force close (section 5), which
runs the same close path as a normal close. -/
def ServerRoom.voteTimeoutClose (r : ServerRoom) : Except RoomError ServerRoom :=
  r.closeRound

/-- Modelled from the spec: has every eligible (connected, non-speaker)
player voted (section 4.1 submit_vote)? -/
def ServerRoom.allEligibleVoted (r : ServerRoom) (rd : ServerRound) : Bool :=
  (r.players.filter (fun p => p.is_connected && p.id ≠ rd.speakerId)).all
    (fun p => (rd.votes.lookup p.id).isSome)

/-- Modelled from the spec: submit_vote (section 4.1): StaleRound when the
round id does not match the open round, Forbidden for the speaker, votes
accepted only from connected members, overwrite-recording, and automatic
close once every eligible player has voted. -/
def ServerRoom.submitVote (r : ServerRoom) (sessionId roundId emotionId : String) :
    Except RoomError ServerRoom :=
  match r.currentRound with
  | none => Except.error RoomError.StaleRound
  | some rd =>
      if roundId ≠ rd.id then Except.error RoomError.StaleRound
      else if sessionId = rd.speakerId then Except.error RoomError.Forbidden
      else
        match r.findPlayer sessionId with
        | none => Except.error RoomError.NotFound
        | some p =>
            if !p.is_connected then Except.error RoomError.Forbidden
            else
              let rd2 : ServerRound :=
                { rd with votes := recordVote rd.votes sessionId emotionId }
              let r2 : ServerRoom := { r with currentRound := some rd2 }
              if r2.allEligibleVoted rd2 then r2.closeRound
              else Except.ok r2

/-- Phase and host preconditions of start_round (section 4.1): only from
waiting, or from result with fewer than max cycles completed, and only for
the host. -/
def ServerRoom.startPermitted (r : ServerRoom) (sessionId : String) : Bool :=
  r.isHostSession sessionId &&
    (r.phase = GamePhase.waiting ||
      (r.phase = GamePhase.result && r.completedCycles < r.config.max_rounds))

/-- Modelled from the spec: speaker selection (section 4.1): sequential picks
the next connected player in roster order after the previous speaker,
wrapping; random picks uniformly among connected players, excluding the
immediately previous speaker when at least three players are present. The
entropy argument stands for the random draw. -/
def ServerRoom.selectSpeakerIdx (r : ServerRoom) (entropy : Nat) : Option Nat :=
  let elig := r.eligibleIdxs
  match r.config.speaker_order with
  | SpeakerOrder.sequential =>
      match r.lastSpeakerIdx with
      | none => elig.head?
      | some last =>
          match (elig.filter (fun i => last < i)).head? with
          | some i => some i
          | none => elig.head?
  | SpeakerOrder.random =>
      let pool :=
        if 3 ≤ r.players.length then
          match r.lastSpeakerIdx with
          | some last =>
              let p := elig.filter (fun i => i ≠ last)
              if p.isEmpty then elig else p
          | none => elig
        else elig
      pool.get? (entropy % pool.length)

/-- Modelled from the spec: voting choices built from the vote type
(section 4.1): four, eight, or the full wheel. The wheel list is the
full-wheel choice set served by the backend. -/
def buildVotingChoices : VoteType → List EmotionChoice
  | VoteType.fourChoice => basicChoices
  | VoteType.eightChoice => basicChoices ++ advancedExtraChoices
  | VoteType.wheel => basicChoices ++ advancedExtraChoices

/-- Modelled from the spec: a prefetched (phrase, target-emotion) pair tagged
by mode (section 3 PhraseCacheEntry). -/
structure PhraseCacheEntry where
  phrase : String
  emotionId : String
  mode : GameMode
deriving DecidableEq

/-- Modelled from the spec: start_round (section 4.1). The popped phrase
entry, the fresh round id and the entropy for random speaker selection are
passed in by the dispatcher. Validates phase, host and player count, selects
the speaker, opens the round and enters in_round. -/
def ServerRoom.startRound (r : ServerRoom) (sessionId : String)
    (entry : PhraseCacheEntry) (newRoundId : String) (entropy : Nat) :
    Except RoomError ServerRoom :=
  if !r.startPermitted sessionId then Except.error RoomError.Forbidden
  else if r.connectedCount < 2 then Except.error RoomError.NotEnoughPlayers
  else
    match r.selectSpeakerIdx entropy with
    | none => Except.error RoomError.NotEnoughPlayers
    | some i =>
        match r.players.get? i with
        | none => Except.error RoomError.NotEnoughPlayers
        | some sp =>
            Except.ok { r with
              currentRound := some
                { id := newRoundId
                  phrase := entry.phrase
                  emotionId := entry.emotionId
                  speakerId := sp.id
                  votingChoices := buildVotingChoices r.config.vote_type
                  votes := [] }
              phase := GamePhase.in_round
              lastSpeakerIdx := some i }

/-- Modelled from the spec: join (section 4.1): reconnect in place when the
session id is known and previously disconnected, RoomFull at capacity, else
append a new Player whose host flag is true only when the room had zero
players. Valid in any phase except closed. -/
def ServerRoom.join (r : ServerRoom) (playerName sessionId : String) :
    Except RoomError ServerRoom :=
  if r.phase = GamePhase.closed then Except.error RoomError.NotFound
  else
    match r.findPlayer sessionId with
    | some _ =>
        Except.ok { r with
          players := r.players.map
            (fun p => if p.id = sessionId then { p with is_connected := true } else p) }
    | none =>
        if maxPlayers ≤ r.players.length then Except.error RoomError.RoomFull
        else
          Except.ok { r with
            players := r.players ++
              [{ id := sessionId
                 name := playerName
                 score := 0
                 is_host := r.players.length = 0
                 is_connected := true }] }

/-- Mark one player disconnected, keeping everything else. -/
def ServerRoom.markDisconnected (r : ServerRoom) (sessionId : String) : ServerRoom :=
  { r with
    players := r.players.map
      (fun p => if p.id = sessionId then { p with is_connected := false } else p) }

/-- Modelled from the spec: leave (section 4.1): removal outright in waiting,
otherwise mark disconnected; when the leaving player was the open round's
speaker the round is force-closed through the normal close path. -/
def ServerRoom.leave (r : ServerRoom) (sessionId : String) :
    Except RoomError ServerRoom :=
  match r.findPlayer sessionId with
  | none => Except.error RoomError.NotFound
  | some _ =>
      if r.phase = GamePhase.waiting then
        Except.ok { r with players := r.players.filter (fun p => p.id ≠ sessionId) }
      else
        let r2 : ServerRoom := r.markDisconnected sessionId
        match r2.currentRound with
        | some rd =>
            if rd.speakerId = sessionId then r2.closeRound
            else Except.ok r2
        | none => Except.ok r2

/-- The game is complete: the configured maximum number of cycles has been
reached (section 4.1 round close). -/
def ServerRoom.gameComplete (r : ServerRoom) : Bool :=
  r.config.max_rounds ≤ r.completedCycles

/-- Modelled from the spec: restart (section 4.1): host-only, valid only from
the game-complete result phase; zeroes every score and both counters,
returns to waiting, preserves roster and configuration. -/
def ServerRoom.restartGame (r : ServerRoom) (sessionId : String) :
    Except RoomError ServerRoom :=
  if r.isHostSession sessionId && (r.phase = GamePhase.result) && r.gameComplete then
    Except.ok { r with
      players := r.players.map (fun p => { p with score := 0 })
      phase := GamePhase.waiting
      currentRound := none
      completedRounds := 0
      completedCycles := 0
      lastSpeakerIdx := none }
  else Except.error RoomError.Forbidden

/-- Modelled from the spec: update_config (section 4.1): host-only, valid
only in waiting, Conflict when a round is in flight or the phase is not
waiting; replaces the configuration atomically. -/
def ServerRoom.updateConfig (r : ServerRoom) (sessionId : String) (cfg : RoomConfig) :
    Except RoomError ServerRoom :=
  if !r.isHostSession sessionId then Except.error RoomError.Forbidden
  else if r.phase ≠ GamePhase.waiting then Except.error RoomError.Conflict
  else Except.ok { r with config := cfg }

/-- One inbound room operation of the Room State Machine. -/
inductive RoomOp
  | join (playerName sessionId : String)
  | start (sessionId : String) (entry : PhraseCacheEntry) (newRoundId : String) (entropy : Nat)
  | vote (sessionId roundId emotionId : String)
  | timeoutClose
  | leave (sessionId : String)
  | restart (sessionId : String)
  | setConfig (sessionId : String) (cfg : RoomConfig)

/-- Modelled from the spec: the dispatcher applies an operation through the
Session Store gate; a failure produces an error event and leaves the room
unchanged (section 7). -/
def ServerRoom.applyOp (r : ServerRoom) (op : RoomOp) : ServerRoom × Option RoomError :=
  let res : Except RoomError ServerRoom :=
    match op with
    | RoomOp.join n sid => r.join n sid
    | RoomOp.start sid entry rid ent => r.startRound sid entry rid ent
    | RoomOp.vote sid rid emo => r.submitVote sid rid emo
    | RoomOp.timeoutClose => r.voteTimeoutClose
    | RoomOp.leave sid => r.leave sid
    | RoomOp.restart sid => r.restartGame sid
    | RoomOp.setConfig sid cfg => r.updateConfig sid cfg
  match res with
  | Except.ok r2 => (r2, none)
  | Except.error e => (r, some e)

/-- A freshly created room (spec section 3 lifecycle). -/
def initialRoom (roomId : String) (cfg : RoomConfig) : ServerRoom :=
  { id := roomId
    players := []
    config := cfg
    phase := GamePhase.waiting
    currentRound := none
    completedRounds := 0
    completedCycles := 0
    lastSpeakerIdx := none }

/-- States reachable from a freshly created room through room operations. -/
inductive ReachableRoom (roomId : String) (cfg : RoomConfig) : ServerRoom → Prop
  | init : ReachableRoom roomId cfg (initialRoom roomId cfg)
  | step (r : ServerRoom) (op : RoomOp) :
      ReachableRoom roomId cfg r → ReachableRoom roomId cfg (r.applyOp op).1

/-- The phase and round-presence coupling of spec section 3: the current
Round is non-null exactly when the phase is in_round (at-most-one open round
is structural, the round being a single Option field). -/
def roomInv (r : ServerRoom) : Prop :=
  r.currentRound.isSome ↔ r.phase = GamePhase.in_round

instance (r : ServerRoom) : Decidable (roomInv r) := by
  unfold roomInv; infer_instance

/-- Target of an outbound socket event: broadcast to the whole room, or
unicast to a single socket. -/
inductive SocketTarget
  | broadcast
  | toSocket (sessionId : String)
deriving DecidableEq

/-- Outbound round events of the start_round operation. -/
inductive OutEvent
  | roundStart (p : RoundStartPayload)
  | speakerEmotion (p : SpeakerEmotionPayload)
deriving DecidableEq

/-- Modelled from the spec: the events emitted by start_round (section 4.1):
a public round_start broadcast carrying round id, phrase, speaker name and
voting choices, and a private speaker_emotion carrying the emotion id,
directed only at the speaker's socket. -/
def startRoundEmissions (rd : ServerRound) (speakerName : String) :
    List (SocketTarget × OutEvent) :=
  [(SocketTarget.broadcast,
    OutEvent.roundStart
      { roundId := rd.id
        phrase := rd.phrase
        speakerName := speakerName
        votingChoices := some rd.votingChoices }),
   (SocketTarget.toSocket rd.speakerId,
    OutEvent.speakerEmotion
      { roundId := rd.id
        emotionId := rd.emotionId
        emotionName := none })]

/-- Modelled from the spec: the per-mode Phrase Cache (section 4.3), a FIFO
queue per mode, oldest entry first. -/
structure PhraseCache where
  queues : GameMode → List PhraseCacheEntry

/-- Modelled from the spec: the deterministic static fallback entry per mode,
substituted when the inline fetch exceeds its timeout budget. -/
def fallbackEntry : GameMode → PhraseCacheEntry
  | GameMode.basic =>
      { phrase := "今日はいい天気ですね", emotionId := "joy", mode := GameMode.basic }
  | GameMode.advanced =>
      { phrase := "もうこんな時間ですか", emotionId := "surprise", mode := GameMode.advanced }
  | GameMode.wheel =>
      { phrase := "そんなことがあったんですね", emotionId := "trust", mode := GameMode.wheel }

/-- Modelled from the spec: append a freshly generated entry to a mode's
queue (refill path of section 4.3). -/
def PhraseCache.push (c : PhraseCache) (mode : GameMode) (e : PhraseCacheEntry) :
    PhraseCache :=
  { queues := fun m => if m = mode then c.queues m ++ [e] else c.queues m }

/-- Modelled from the spec: pop (section 4.3). Returns the oldest entry when
the mode's queue is non-empty; otherwise performs the inline bounded-time
fetch, whose outcome is abstracted as an Option — some entry when the
collaborator answered within the timeout budget, none when it did not — and
substitutes the static fallback on none. Total by construction: the caller
always receives an entry, and a collaborator failure is never raised. -/
def PhraseCache.pop (c : PhraseCache) (mode : GameMode)
    (inlineFetch : Option PhraseCacheEntry) : PhraseCacheEntry × PhraseCache :=
  match c.queues mode with
  | e :: rest =>
      (e, { queues := fun m => if m = mode then rest else c.queues m })
  | [] =>
      match inlineFetch with
      | some e => (e, c)
      | none => (fallbackEntry mode, c)

/-- Modelled from the spec: Session Store create (section 4.2), amended where
the in-src callers contradict the spec: the createRoom handlers of
src/unnamed/part_009, part_010 and part_011 consume a success response whose
isExistingRoom flag marks an already-active explicit room id (the home page
labels the id field "leave blank to create new room, enter to join existing
room"), so an explicit id already in use yields a success response for the
existing room with no host token, not a Conflict failure. A fresh code is
drawn from the generator's candidate stream, collision-checked against the
existing ids and regenerated on conflict; none when every candidate
collides. -/
def createRoomService (existing : List String) (explicitId : Option String)
    (candidates : List String) (token : String) : Option CreateRoomResponse :=
  match explicitId with
  | some rid =>
      if existing.contains rid then
        some { roomId := rid, hostToken := "", isExistingRoom := true }
      else
        some { roomId := rid, hostToken := token, isExistingRoom := false }
  | none =>
      match candidates.find? (fun c => !existing.contains c) with
      | some c => some { roomId := c, hostToken := token, isExistingRoom := false }
      | none => none

/-! Demo fixtures used by witness theorems. -/

/-- A one-cycle basic 4choice configuration. -/
def demoConfig : RoomConfig :=
  { mode := GameMode.basic
    vote_type := VoteType.fourChoice
    speaker_order := SpeakerOrder.sequential
    vote_timeout := 30
    max_rounds := 1 }

/-- An advanced 8choice configuration. -/
def demoConfig8 : RoomConfig :=
  { demoConfig with mode := GameMode.advanced, vote_type := VoteType.eightChoice }

/-- A client RoomState for an 8choice room. -/
def demoRoomState8 : RoomState :=
  { roomId := "room1"
    players := ["Alice", "Bob"]
    phase := GamePhase.in_round
    config := demoConfig8
    currentSpeaker := some "Alice" }

/-- An open round with one recorded (correct) vote. -/
def demoRound : ServerRound :=
  { id := "round1"
    phrase := "今日はいい天気ですね"
    emotionId := "joy"
    speakerId := "s1"
    votingChoices := basicChoices
    votes := [("s2", "joy")] }

/-- The same round with a different target emotion. -/
def demoRoundAnger : ServerRound :=
  { demoRound with emotionId := "anger" }

/-- Two connected players, the first being the host. -/
def demoPlayers : List Player :=
  [{ id := "s1", name := "Alice", score := 0, is_host := true, is_connected := true },
   { id := "s2", name := "Bob", score := 0, is_host := false, is_connected := true }]

/-- A room in the middle of demoRound. -/
def demoMidRound : ServerRoom :=
  { id := "room1"
    players := demoPlayers
    config := demoConfig
    phase := GamePhase.in_round
    currentRound := some demoRound
    completedRounds := 0
    completedCycles := 0
    lastSpeakerIdx := some 0 }

/-- A game-complete room in the result phase. -/
def demoDoneRoom : ServerRoom :=
  { id := "room1"
    players :=
      [{ id := "s1", name := "Alice", score := 1, is_host := true, is_connected := true },
       { id := "s2", name := "Bob", score := 1, is_host := false, is_connected := true }]
    config := demoConfig
    phase := GamePhase.result
    currentRound := none
    completedRounds := 1
    completedCycles := 1
    lastSpeakerIdx := some 0 }

/-- An empty phrase cache. -/
def demoEmptyCache : PhraseCache := { queues := fun _ => [] }

/-! Helper lemmas. -/

theorem recordVote_lookup_self (vs : List (String × String)) (v e : String) :
    (recordVote vs v e).lookup v = some e := by
  induction vs with
  | nil => simp [recordVote]
  | cons hd tl ih =>
      obtain ⟨a, b⟩ := hd
      by_cases hav : a = v
      · subst hav
        simp [recordVote]
      · have hbeq : (v == a) = false := beq_eq_false_iff_ne.mpr (Ne.symm hav)
        simp [recordVote, hav, List.lookup_cons, hbeq, ih]

theorem recordVote_lookup_other (vs : List (String × String)) (v e w : String)
    (hw : w ≠ v) : (recordVote vs v e).lookup w = vs.lookup w := by
  have hwv : (w == v) = false := beq_eq_false_iff_ne.mpr hw
  induction vs with
  | nil => simp [recordVote, List.lookup_cons, hwv]
  | cons hd tl ih =>
      obtain ⟨a, b⟩ := hd
      by_cases hav : a = v
      · subst hav
        simp [recordVote, List.lookup_cons, hwv]
      · have hrv : recordVote ((a, b) :: tl) v e = (a, b) :: recordVote tl v e := by
          simp [recordVote, hav]
        rw [hrv]
        cases hwa : w == a with
        | true => simp [List.lookup_cons, hwa]
        | false => simp [List.lookup_cons, hwa, ih]

theorem recordVote_length (vs : List (String × String)) (v e : String) :
    (recordVote vs v e).length =
      if (vs.lookup v).isSome then vs.length else vs.length + 1 := by
  induction vs with
  | nil => simp [recordVote]
  | cons hd tl ih =>
      obtain ⟨a, b⟩ := hd
      by_cases hav : a = v
      · subst hav
        simp [recordVote]
      · have hbeq : (v == a) = false := beq_eq_false_iff_ne.mpr (Ne.symm hav)
        simp only [recordVote, if_neg hav, List.length_cons, ih,
          List.lookup_cons, hbeq]
        by_cases hs : (tl.lookup v).isSome
        · simp [hs]
        · simp [hs]

theorem recordVote_cons_eq (a b e : String) (tl : List (String × String)) :
    recordVote ((a, b) :: tl) a e = (a, e) :: tl := by
  simp [recordVote]

theorem recordVote_cons_ne (a b v e : String) (tl : List (String × String))
    (h : a ≠ v) : recordVote ((a, b) :: tl) v e = (a, b) :: recordVote tl v e := by
  simp [recordVote, h]

theorem recordVote_keys_sub (vs : List (String × String)) (v e w : String) :
    w ∈ (recordVote vs v e).map Prod.fst → w = v ∨ w ∈ vs.map Prod.fst := by
  induction vs with
  | nil => simp [recordVote]
  | cons hd tl ih =>
      obtain ⟨a, b⟩ := hd
      by_cases hav : a = v
      · subst hav
        rw [recordVote_cons_eq]
        simp only [List.map_cons, List.mem_cons]
        intro h
        rcases h with h | h
        · exact Or.inl h
        · exact Or.inr (Or.inr h)
      · rw [recordVote_cons_ne a b v e tl hav]
        simp only [List.map_cons, List.mem_cons]
        intro h
        rcases h with h | h
        · exact Or.inr (Or.inl h)
        · rcases ih h with h2 | h2
          · exact Or.inl h2
          · exact Or.inr (Or.inr h2)

theorem recordVote_keys_nodup (vs : List (String × String)) (v e : String)
    (h : (vs.map Prod.fst).Nodup) :
    ((recordVote vs v e).map Prod.fst).Nodup := by
  induction vs with
  | nil => simp [recordVote]
  | cons hd tl ih =>
      obtain ⟨a, b⟩ := hd
      simp only [List.map_cons, List.nodup_cons] at h
      by_cases hav : a = v
      · subst hav
        rw [recordVote_cons_eq]
        simp only [List.map_cons, List.nodup_cons]
        exact ⟨h.1, h.2⟩
      · rw [recordVote_cons_ne a b v e tl hav]
        simp only [List.map_cons, List.nodup_cons]
        refine ⟨?_, ih h.2⟩
        intro hmem
        rcases recordVote_keys_sub tl v e a hmem with h1 | h1
        · exact hav h1
        · exact h.1 h1

theorem lookup_filter_correct (vs : List (String × String)) (target sid : String)
    (hnd : (vs.map Prod.fst).Nodup) :
    (sid ∈ (vs.filter (fun v => v.2 = target)).map Prod.fst ↔
      vs.lookup sid = some target) := by
  induction vs with
  | nil => simp
  | cons hd tl ih =>
      obtain ⟨a, b⟩ := hd
      simp only [List.map_cons, List.nodup_cons] at hnd
      have hsub : sid ∈ (tl.filter (fun v => v.2 = target)).map Prod.fst →
          sid ∈ tl.map Prod.fst := by
        intro hm
        simp only [List.mem_map] at hm ⊢
        obtain ⟨x, hx1, hx2⟩ := hm
        exact ⟨x, List.mem_of_mem_filter hx1, hx2⟩
      by_cases has : sid = a
      · subst has
        by_cases hb : b = target
        · subst hb
          rw [List.filter_cons_of_pos (by simp)]
          simp
        · rw [List.filter_cons_of_neg (by simp [hb])]
          simp only [List.lookup_cons_self, Option.some.injEq]
          constructor
          · intro hm
            exact absurd (hsub hm) hnd.1
          · intro hm
            exact absurd hm hb
      · have hbeq : (sid == a) = false := beq_eq_false_iff_ne.mpr has
        rw [List.lookup_cons]
        simp only [hbeq]
        by_cases hb : b = target
        · rw [List.filter_cons_of_pos (by simp [hb])]
          simp only [List.map_cons, List.mem_cons]
          constructor
          · intro hm
            rcases hm with hm | hm
            · exact absurd hm has
            · exact (ih hnd.2).1 hm
          · intro hm
            exact Or.inr ((ih hnd.2).2 hm)
        · rw [List.filter_cons_of_neg (by simp [hb])]
          exact ih hnd.2

theorem closeRound_shape (r r2 : ServerRoom)
    (h : r.closeRound = Except.ok r2) :
    r2.phase = GamePhase.result ∧ r2.currentRound = none := by
  unfold ServerRoom.closeRound at h
  cases hr : r.currentRound with
  | none => rw [hr] at h; exact absurd h (by simp)
  | some rd =>
      rw [hr] at h
      simp only [Except.ok.injEq] at h
      subst h
      exact ⟨rfl, rfl⟩

/-! Claim theorems. -/

/-- C8 counterexample: the round_result payload does not carry the field
names the claim lists — the source interface (frontend/types/game.ts
RoundResult) names them round_id, correct_emotion and speaker_name and adds
completedCycles and maxCycles. -/
theorem round_result_fields_mismatch : roundResultFields ≠ specRoundResultFields := by
  decide

/-- C8 (amended): every round_result payload carries the fields round_id,
correct_emotion, correctEmotionId, speaker_name, scores, votes,
isGameComplete, completedRounds, maxRounds, completedCycles and maxCycles,
under those names, as declared by the RoundResult interface. -/
theorem round_result_fields_match_source :
    roundResultFields = amendedRoundResultFields := by
  decide

/-- C10: when the round_start payload carried no voting choices (absent or
empty), the RoomPage choice list is exactly the static four-entry list joy,
anger, sadness, surprise, extended by fear, disgust, trust, anticipation to
exactly eight entries precisely when the room config vote_type is 8choice. -/
theorem emotion_choices_fallback (p : RoundStartPayload) (rs : RoomState)
    (h : p.votingChoices = none ∨ p.votingChoices = some []) :
    emotionChoices (some (roundStartHandler p)) (some rs) =
      (if rs.config.vote_type = VoteType.eightChoice then
        basicChoices ++ advancedExtraChoices
      else basicChoices) ∧
    ((emotionChoices (some (roundStartHandler p)) (some rs)).length = 8 ↔
      rs.config.vote_type = VoteType.eightChoice) ∧
    (rs.config.vote_type ≠ VoteType.eightChoice →
      (emotionChoices (some (roundStartHandler p)) (some rs)).length = 4) := by
  have hempty : (roundStartHandler p).voting_choices = some [] := by
    rcases h with h | h <;> simp [roundStartHandler, h]
  have hmain : emotionChoices (some (roundStartHandler p)) (some rs) =
      fallbackChoices (some rs) := by
    simp [emotionChoices, hempty]
  refine ⟨?_, ?_, ?_⟩
  · rw [hmain]
    by_cases h8 : rs.config.vote_type = VoteType.eightChoice
    · simp [fallbackChoices, h8]
    · simp [fallbackChoices, h8]
  · rw [hmain]
    by_cases h8 : rs.config.vote_type = VoteType.eightChoice
    · simp [fallbackChoices, h8, basicChoices, advancedExtraChoices]
    · simp only [fallbackChoices, if_neg h8]
      simp [basicChoices, h8]
  · intro h8
    rw [hmain]
    simp [fallbackChoices, h8, basicChoices]

/-- C10 witness: a round whose payload carried no choices in an 8choice room
shows the eight-entry fallback. -/
theorem emotion_choices_fallback_witness :
    emotionChoices
      (some (roundStartHandler
        { roundId := "round1", phrase := "x", speakerName := "Alice",
          votingChoices := none }))
      (some demoRoomState8) = basicChoices ++ advancedExtraChoices := by
  have h := (emotion_choices_fallback
    { roundId := "round1", phrase := "x", speakerName := "Alice",
      votingChoices := none } demoRoomState8 (Or.inl rfl)).1
  simpa [demoRoomState8, demoConfig8] using h

/-- C9: Phrase Cache pop returns the oldest cached entry when the per-mode
queue is non-empty; on an empty queue it returns the collaborator's answer
when the bounded inline fetch produced one, and the deterministic static
fallback for the mode when the fetch exceeded its budget (fetch outcome
none); push appends, so the head is the oldest entry, and pop is a total
function that never raises a collaborator failure. -/
theorem phrase_cache_pop_bounded (c : PhraseCache) (m : GameMode)
    (f : Option PhraseCacheEntry) :
    (∀ e rest, c.queues m = e :: rest → (c.pop m f).1 = e) ∧
    (c.queues m = [] → ∀ e, f = some e → (c.pop m f).1 = e) ∧
    (c.queues m = [] → f = none → (c.pop m f).1 = fallbackEntry m) ∧
    (∀ e, (c.push m e).queues m = c.queues m ++ [e]) := by
  refine ⟨?_, ?_, ?_, ?_⟩
  · intro e rest h
    simp [PhraseCache.pop, h]
  · intro h e hf
    simp [PhraseCache.pop, h, hf]
  · intro h hf
    simp [PhraseCache.pop, h, hf]
  · intro e
    simp [PhraseCache.push]

/-- C9 witness: popping from an empty cache while the collaborator never
answers returns the static fallback for the mode. -/
theorem phrase_cache_pop_bounded_witness :
    (demoEmptyCache.pop GameMode.basic none).1 = fallbackEntry GameMode.basic :=
  (phrase_cache_pop_bounded demoEmptyCache GameMode.basic none).2.2.1 rfl rfl

/-- C5 counterexample: a create request for the explicit id "abc" while a
room "abc" is active does not fail: it returns a success response for the
existing room, flagged isExistingRoom, which the client handles by joining
as a regular participant. -/
theorem create_existing_id_succeeds :
    createRoomService ["abc"] (some "abc") ["zzz"] "tok" =
      some { roomId := "abc", hostToken := "", isExistingRoom := true } ∧
    (createRoomService ["abc"] (some "abc") ["zzz"] "tok").isSome = true ∧
    handleCreateRoomSuccess { roomId := "abc", hostToken := "", isExistingRoom := true } =
      ClientNav.enterAsParticipant "abc" := by
  refine ⟨?_, ?_, ?_⟩ <;> rfl

/-- C5 (amended): create with an explicitly supplied id already in use by an
active room succeeds, returning the existing room's id flagged
isExistingRoom with no host token, and the client joins it as a regular
participant; with a free explicit id it creates the room and the client
enters as host; with no id supplied, the generated code is collision-checked
against the existing ids, so a create that generates its code never returns
the id of a previously active room. -/
theorem create_room_contract (existing : List String) (rid : String)
    (cands : List String) (tok : String) :
    (existing.contains rid = true →
      createRoomService existing (some rid) cands tok =
        some { roomId := rid, hostToken := "", isExistingRoom := true } ∧
      handleCreateRoomSuccess
        { roomId := rid, hostToken := "", isExistingRoom := true } =
        ClientNav.enterAsParticipant rid) ∧
    (existing.contains rid = false →
      createRoomService existing (some rid) cands tok =
        some { roomId := rid, hostToken := tok, isExistingRoom := false } ∧
      handleCreateRoomSuccess
        { roomId := rid, hostToken := tok, isExistingRoom := false } =
        ClientNav.enterAsHost rid tok) ∧
    (∀ resp, createRoomService existing none cands tok = some resp →
      resp.isExistingRoom = false ∧ existing.contains resp.roomId = false) := by
  refine ⟨?_, ?_, ?_⟩
  · intro h
    have hm : rid ∈ existing := by simpa using h
    constructor
    · simp [createRoomService, hm]
    · rfl
  · intro h
    have hm : rid ∉ existing := by simpa using h
    constructor
    · simp [createRoomService, hm]
    · rfl
  · intro resp h
    unfold createRoomService at h
    cases hf : cands.find? (fun c => !existing.contains c) with
    | none => rw [hf] at h; exact absurd h (by simp)
    | some c =>
        rw [hf] at h
        simp only [Option.some.injEq] at h
        have hc := List.find?_some hf
        simp only [Bool.not_eq_true'] at hc
        subst h
        exact ⟨rfl, hc⟩

/-- C5 witness: instantiating the amended contract at a busy id. -/
theorem create_room_contract_witness :
    createRoomService ["abc"] (some "abc") ["zzz"] "tok" =
      some { roomId := "abc", hostToken := "", isExistingRoom := true } :=
  ((create_room_contract ["abc"] "abc" ["zzz"] "tok").1 rfl).1

/-- C1: the public round_start emission of a round start is independent of
the round's target emotion (two rounds differing only in the target emotion
broadcast identical round_start payloads carrying round id, phrase, speaker
name and voting choices), every speaker_emotion emission — the only carrier
of the emotion id — is unicast to the speaker's socket and never broadcast,
and the client round_start handlers store an empty emotion for listeners. -/
theorem speaker_emotion_unicast_only :
    (∀ rd rd2 : ServerRound, ∀ name : String,
      rd.id = rd2.id → rd.phrase = rd2.phrase → rd.speakerId = rd2.speakerId →
      rd.votingChoices = rd2.votingChoices →
      (startRoundEmissions rd name).filter
          (fun te => te.1 = SocketTarget.broadcast) =
        (startRoundEmissions rd2 name).filter
          (fun te => te.1 = SocketTarget.broadcast)) ∧
    (∀ rd : ServerRound, ∀ name : String, ∀ t p,
      (t, OutEvent.speakerEmotion p) ∈ startRoundEmissions rd name →
      t = SocketTarget.toSocket rd.speakerId) ∧
    (∀ rd : ServerRound, ∀ name : String,
      (SocketTarget.broadcast,
        OutEvent.roundStart
          { roundId := rd.id, phrase := rd.phrase, speakerName := name,
            votingChoices := some rd.votingChoices }) ∈
        startRoundEmissions rd name) ∧
    (∀ p : RoundStartPayload,
      (roundStartHandlerHooks p).emotion_id = "" ∧
      (roundStartHandler p).emotion_id = "") := by
  refine ⟨?_, ?_, ?_, ?_⟩
  · intro rd rd2 name h1 h2 h3 h4
    simp [startRoundEmissions, h1, h2, h3, h4]
  · intro rd name t p hmem
    simp only [startRoundEmissions, List.mem_cons, List.mem_singleton,
      Prod.mk.injEq, List.not_mem_nil, or_false] at hmem
    rcases hmem with ⟨_, h⟩ | ⟨h, _⟩
    · exact absurd h (by simp)
    · exact h
  · intro rd name
    simp [startRoundEmissions]
  · intro p
    exact ⟨rfl, rfl⟩

/-- C7: a successful restart happens only for the host from the
game-complete result phase, zeroes every player's score and both counters,
returns the phase to waiting, and leaves the roster (membership, order, host
and connection flags) and the configuration unchanged. -/
theorem restart_resets_scores (r : ServerRoom) (sid : String) (r2 : ServerRoom)
    (h : r.restartGame sid = Except.ok r2) :
    r.isHostSession sid = true ∧ r.phase = GamePhase.result ∧
    r.gameComplete = true ∧
    (∀ p ∈ r2.players, p.score = 0) ∧
    r2.completedRounds = 0 ∧ r2.completedCycles = 0 ∧
    r2.phase = GamePhase.waiting ∧
    r2.players.map (fun p => (p.id, p.name, p.is_host, p.is_connected)) =
      r.players.map (fun p => (p.id, p.name, p.is_host, p.is_connected)) ∧
    r2.config = r.config := by
  unfold ServerRoom.restartGame at h
  split at h
  next hc =>
    simp only [Bool.and_eq_true, decide_eq_true_eq] at hc
    simp only [Except.ok.injEq] at h
    subst h
    refine ⟨hc.1.1, hc.1.2, hc.2, ?_, rfl, rfl, rfl, ?_, rfl⟩
    · intro p hp
      simp only [List.mem_map] at hp
      obtain ⟨q, _, hq⟩ := hp
      rw [← hq]
    · simp [List.map_map, Function.comp]
  next hc =>
    exact absurd h (by simp)

/-- The expected room after restarting demoDoneRoom. -/
def demoRestartedRoom : ServerRoom :=
  { demoDoneRoom with
      players := demoDoneRoom.players.map (fun p => { p with score := 0 })
      phase := GamePhase.waiting
      currentRound := none
      completedRounds := 0
      completedCycles := 0
      lastSpeakerIdx := none }

/-- C7 witness: the host restarting a finished demo game zeroes scores and
returns to waiting. -/
theorem restart_resets_scores_witness :
    (∀ p ∈ demoRestartedRoom.players, p.score = 0) ∧
    demoRestartedRoom.phase = GamePhase.waiting ∧
    demoRestartedRoom.config = demoDoneRoom.config := by
  have h := restart_resets_scores demoDoneRoom "s1" demoRestartedRoom (by rfl)
  exact ⟨h.2.2.2.1, h.2.2.2.2.2.2.1, h.2.2.2.2.2.2.2.2⟩

/-- C6: start_round succeeds only when the phase/host precondition holds
(phase waiting, or result with fewer than max cycles completed, and the
requester is the host) with at least two connected players; a phase or host
violation yields Forbidden, fewer than two connected players with the
precondition otherwise satisfied yields NotEnoughPlayers, and any failure
leaves the room unchanged. -/
theorem start_round_contract (r : ServerRoom) (sid : String)
    (entry : PhraseCacheEntry) (rid : String) (ent : Nat) :
    (∀ r2, r.startRound sid entry rid ent = Except.ok r2 →
      r.startPermitted sid = true ∧ 2 ≤ r.connectedCount) ∧
    (r.startPermitted sid = false →
      r.startRound sid entry rid ent = Except.error RoomError.Forbidden) ∧
    (r.startPermitted sid = true → r.connectedCount < 2 →
      r.startRound sid entry rid ent = Except.error RoomError.NotEnoughPlayers) ∧
    (∀ e, r.startRound sid entry rid ent = Except.error e →
      r.applyOp (RoomOp.start sid entry rid ent) = (r, some e)) ∧
    (r.startPermitted sid = true ↔
      (r.isHostSession sid = true ∧
        (r.phase = GamePhase.waiting ∨
          (r.phase = GamePhase.result ∧
            r.completedCycles < r.config.max_rounds)))) := by
  refine ⟨?_, ?_, ?_, ?_, ?_⟩
  · intro r2 h
    unfold ServerRoom.startRound at h
    by_cases hp : r.startPermitted sid = true
    · by_cases hcc : r.connectedCount < 2
      · rw [if_neg (by simp [hp]), if_pos hcc] at h
        exact absurd h (by simp)
      · exact ⟨hp, Nat.not_lt.mp hcc⟩
    · have hp2 : r.startPermitted sid = false := by
        simpa using hp
      rw [if_pos (by simp [hp2])] at h
      exact absurd h (by simp)
  · intro hp
    unfold ServerRoom.startRound
    rw [if_pos (by simp [hp])]
  · intro hp hcc
    unfold ServerRoom.startRound
    rw [if_neg (by simp [hp]), if_pos hcc]
  · intro e h
    simp [ServerRoom.applyOp, h]
  · simp [ServerRoom.startPermitted, Bool.and_eq_true, Bool.or_eq_true,
      decide_eq_true_eq]

/-- C6 witness: a non-host requester is rejected with Forbidden. -/
theorem start_round_contract_witness :
    demoMidRound.startRound "s2" (fallbackEntry GameMode.basic) "round2" 0 =
      Except.error RoomError.Forbidden :=
  (start_round_contract demoMidRound "s2" (fallbackEntry GameMode.basic)
    "round2" 0).2.1 (by rfl)

/-- C4: submit_vote against a round id that is not the open round's id is
rejected with StaleRound leaving the room unchanged; the speaker's vote is
rejected with Forbidden leaving the room unchanged; otherwise the vote is
recorded, where a second vote from the same player overwrites the first
(same lookup target, no duplicate key, unchanged length on re-vote), and as
soon as every connected non-speaker player has voted the round closes
automatically. -/
theorem submit_vote_contract (r : ServerRoom) (sid rid emo : String)
    (rd : ServerRound) (hr : r.currentRound = some rd) :
    (rid ≠ rd.id →
      r.applyOp (RoomOp.vote sid rid emo) = (r, some RoomError.StaleRound)) ∧
    (rid = rd.id → sid = rd.speakerId →
      r.applyOp (RoomOp.vote sid rid emo) = (r, some RoomError.Forbidden)) ∧
    (∀ p rd2 r2, rid = rd.id → sid ≠ rd.speakerId →
      r.findPlayer sid = some p → p.is_connected = true →
      rd2 = { rd with votes := recordVote rd.votes sid emo } →
      r2 = { r with currentRound := some rd2 } →
      (r.submitVote sid rid emo =
        (if r2.allEligibleVoted rd2 then r2.closeRound else Except.ok r2)) ∧
      rd2.votes.lookup sid = some emo ∧
      (∀ w, w ≠ sid → rd2.votes.lookup w = rd.votes.lookup w) ∧
      ((rd.votes.map Prod.fst).Nodup → (rd2.votes.map Prod.fst).Nodup) ∧
      (rd2.votes.length =
        if (rd.votes.lookup sid).isSome then rd.votes.length
        else rd.votes.length + 1) ∧
      (r2.allEligibleVoted rd2 = true →
        ∃ r3, r.submitVote sid rid emo = Except.ok r3 ∧
          r3.phase = GamePhase.result ∧ r3.currentRound = none)) := by
  refine ⟨?_, ?_, ?_⟩
  · intro hne
    have hsv : r.submitVote sid rid emo = Except.error RoomError.StaleRound := by
      unfold ServerRoom.submitVote
      simp only [hr]
      rw [if_pos hne]
    simp [ServerRoom.applyOp, hsv]
  · intro h1 h2
    have hsv : r.submitVote sid rid emo = Except.error RoomError.Forbidden := by
      unfold ServerRoom.submitVote
      simp only [hr]
      rw [if_neg (by simp [h1]), if_pos h2]
    simp [ServerRoom.applyOp, hsv]
  · intro p rd2 r2 h1 h2 h3 h4 hrd2 hr2
    have hbody : r.submitVote sid rid emo =
        (if r2.allEligibleVoted rd2 then r2.closeRound else Except.ok r2) := by
      subst hrd2
      subst hr2
      unfold ServerRoom.submitVote
      simp only [hr, h3]
      rw [if_neg (by simp [h1]), if_neg h2]
      simp [h4]
    refine ⟨hbody, ?_, ?_, ?_, ?_, ?_⟩
    · rw [hrd2]
      exact recordVote_lookup_self rd.votes sid emo
    · intro w hw
      rw [hrd2]
      exact recordVote_lookup_other rd.votes sid emo w hw
    · intro hnd
      rw [hrd2]
      exact recordVote_keys_nodup rd.votes sid emo hnd
    · rw [hrd2]
      exact recordVote_length rd.votes sid emo
    · intro hall
      have hok : ∃ r3, r2.closeRound = Except.ok r3 := by
        subst hrd2
        subst hr2
        unfold ServerRoom.closeRound
        exact ⟨_, rfl⟩
      obtain ⟨r3, h5⟩ := hok
      refine ⟨r3, ?_, (closeRound_shape r2 r3 h5).1, (closeRound_shape r2 r3 h5).2⟩
      rw [hbody, if_pos hall, h5]

/-- C4 witness: a vote carrying a stale round id is rejected with StaleRound
and the room is unchanged. -/
theorem submit_vote_contract_witness :
    demoMidRound.applyOp (RoomOp.vote "s2" "bogus" "joy") =
      (demoMidRound, some RoomError.StaleRound) :=
  (submit_vote_contract demoMidRound "s2" "bogus" "joy" demoRound rfl).1
    (by decide)

/-- C3: closing an open round applies, exactly once, the deltas of the
scoring rule: a voter counts as correct exactly when their submitted emotion
id equals the round's target emotion id (for duplicate-free vote keys), each
correct listener's score grows by exactly 1, the speaker's score grows by
exactly the number of correct voters, every other player keeps the same
score, the round is consumed (phase result, no current round) so the same
round can never close twice, and the vote-timeout and speaker-leave paths
run this same close. -/
theorem round_close_scoring (r : ServerRoom) (rd : ServerRound)
    (hr : r.currentRound = some rd) :
    (∃ r2, r.closeRound = Except.ok r2 ∧
      r2.phase = GamePhase.result ∧ r2.currentRound = none ∧
      r2.players.length = r.players.length ∧
      (∀ i p, r.players.get? i = some p →
        r2.players.get? i = some { p with score := p.score + scoreDelta rd p }) ∧
      r2.closeRound = Except.error RoomError.StaleRound) ∧
    (∀ p : Player, p.id ≠ rd.speakerId →
      scoreDelta rd p =
        if rd.votes.lookup p.id = some rd.emotionId then 1 else 0) ∧
    (∀ p : Player, p.id = rd.speakerId →
      scoreDelta rd p = (correctVoters rd).length) ∧
    ((rd.votes.map Prod.fst).Nodup →
      ∀ sid, sid ∈ correctVoters rd ↔ rd.votes.lookup sid = some rd.emotionId) ∧
    r.voteTimeoutClose = r.closeRound ∧
    (∀ sid, r.phase ≠ GamePhase.waiting → (r.findPlayer sid).isSome = true →
      rd.speakerId = sid →
      r.leave sid = (r.markDisconnected sid).closeRound) := by
  refine ⟨?_, ?_, ?_, ?_, rfl, ?_⟩
  · refine ⟨{ r with
        players := r.players.map
          (fun p => { p with score := p.score + scoreDelta rd p })
        currentRound := none
        phase := GamePhase.result
        completedRounds := r.completedRounds + 1
        completedCycles := (r.completedRounds + 1) / max r.players.length 1 },
      ?_, rfl, rfl, by simp, ?_, ?_⟩
    · unfold ServerRoom.closeRound
      simp only [hr]
    · intro i p hp
      rw [List.get?_map, hp]
      rfl
    · unfold ServerRoom.closeRound
      rfl
  · intro p hp
    simp [scoreDelta, hp]
  · intro p hp
    simp [scoreDelta, hp]
  · intro hnd sid
    simpa [correctVoters] using
      lookup_filter_correct rd.votes rd.emotionId sid hnd
  · intro sid h1 h2 h3
    unfold ServerRoom.leave
    cases hf : r.findPlayer sid with
    | none => rw [hf] at h2; exact absurd h2 (by simp)
    | some q =>
        simp only [hf]
        rw [if_neg h1]
        simp [ServerRoom.markDisconnected, hr, h3]

/-- C3 witness: closing the demo mid-round room succeeds and lands in the
result phase with the round consumed. -/
theorem round_close_scoring_witness :
    ∃ r2, demoMidRound.closeRound = Except.ok r2 ∧
      r2.phase = GamePhase.result ∧ r2.currentRound = none := by
  obtain ⟨r2, h1, h2, h3, _⟩ := (round_close_scoring demoMidRound demoRound rfl).1
  exact ⟨r2, h1, h2, h3⟩

theorem inv_join (r r2 : ServerRoom) (n sid : String) (hinv : roomInv r)
    (h : r.join n sid = Except.ok r2) : roomInv r2 := by
  unfold ServerRoom.join at h
  split at h
  next => exact absurd h (by simp)
  next =>
    cases hf : r.findPlayer sid with
    | some p =>
        simp only [hf, Except.ok.injEq] at h
        subst h
        exact hinv
    | none =>
        simp only [hf] at h
        split at h
        next => exact absurd h (by simp)
        next =>
          simp only [Except.ok.injEq] at h
          subst h
          exact hinv

theorem inv_close (r r2 : ServerRoom) (h : r.closeRound = Except.ok r2) :
    roomInv r2 := by
  unfold roomInv
  rw [(closeRound_shape r r2 h).1, (closeRound_shape r r2 h).2]
  simp

theorem inv_start (r r2 : ServerRoom) (sid : String) (entry : PhraseCacheEntry)
    (rid : String) (ent : Nat)
    (h : r.startRound sid entry rid ent = Except.ok r2) : roomInv r2 := by
  unfold ServerRoom.startRound at h
  split at h
  next => exact absurd h (by simp)
  next =>
    split at h
    next => exact absurd h (by simp)
    next =>
      split at h
      next => exact absurd h (by simp)
      next i hsel =>
        split at h
        next => exact absurd h (by simp)
        next sp hsp =>
          simp only [Except.ok.injEq] at h
          subst h
          simp [roomInv]

theorem inv_vote (r r2 : ServerRoom) (sid rid emo : String) (hinv : roomInv r)
    (h : r.submitVote sid rid emo = Except.ok r2) : roomInv r2 := by
  unfold ServerRoom.submitVote at h
  cases hcr : r.currentRound with
  | none =>
      simp only [hcr] at h
      exact absurd h (by simp)
  | some rd =>
      simp only [hcr] at h
      split at h
      next => exact absurd h (by simp)
      next =>
        split at h
        next => exact absurd h (by simp)
        next =>
          split at h
          next => exact absurd h (by simp)
          next p hp =>
            split at h
            next => exact absurd h (by simp)
            next =>
              split at h
              next => exact inv_close _ r2 h
              next =>
                simp only [Except.ok.injEq] at h
                subst h
                unfold roomInv at hinv ⊢
                simp only [hcr, Option.isSome_some] at hinv
                simpa using hinv

theorem inv_leave (r r2 : ServerRoom) (sid : String) (hinv : roomInv r)
    (h : r.leave sid = Except.ok r2) : roomInv r2 := by
  unfold ServerRoom.leave at h
  cases hf : r.findPlayer sid with
  | none =>
      simp only [hf] at h
      exact absurd h (by simp)
  | some q =>
      simp only [hf] at h
      split at h
      next =>
        simp only [Except.ok.injEq] at h
        subst h
        exact hinv
      next =>
        split at h
        next rd hrd =>
          split at h
          next => exact inv_close _ r2 h
          next =>
            simp only [Except.ok.injEq] at h
            subst h
            exact hinv
        next =>
          simp only [Except.ok.injEq] at h
          subst h
          exact hinv

theorem inv_restart (r r2 : ServerRoom) (sid : String)
    (h : r.restartGame sid = Except.ok r2) : roomInv r2 := by
  unfold ServerRoom.restartGame at h
  split at h
  next =>
    simp only [Except.ok.injEq] at h
    subst h
    simp [roomInv]
  next => exact absurd h (by simp)

theorem inv_config (r r2 : ServerRoom) (sid : String) (cfg : RoomConfig)
    (hinv : roomInv r) (h : r.updateConfig sid cfg = Except.ok r2) :
    roomInv r2 := by
  unfold ServerRoom.updateConfig at h
  split at h
  next => exact absurd h (by simp)
  next =>
    split at h
    next => exact absurd h (by simp)
    next =>
      simp only [Except.ok.injEq] at h
      subst h
      exact hinv

/-- C2: a freshly created room satisfies the phase/round coupling (current
Round non-null exactly when the phase is in_round, at most one open round
being structural), every room operation applied through the dispatcher
preserves the coupling, and hence every reachable room state satisfies it. -/
theorem phase_round_coupling :
    (∀ roomId cfg, roomInv (initialRoom roomId cfg)) ∧
    (∀ (r : ServerRoom) (op : RoomOp), roomInv r → roomInv (r.applyOp op).1) ∧
    (∀ roomId cfg r, ReachableRoom roomId cfg r → roomInv r) := by
  have hstep : ∀ (r : ServerRoom) (op : RoomOp), roomInv r →
      roomInv (r.applyOp op).1 := by
    intro r op hinv
    unfold ServerRoom.applyOp
    cases op with
    | join n sid =>
        cases h : r.join n sid with
        | ok r2 => simpa [h] using inv_join r r2 n sid hinv h
        | error e => simpa [h] using hinv
    | start sid entry rid ent =>
        cases h : r.startRound sid entry rid ent with
        | ok r2 => simpa [h] using inv_start r r2 sid entry rid ent h
        | error e => simpa [h] using hinv
    | vote sid rid emo =>
        cases h : r.submitVote sid rid emo with
        | ok r2 => simpa [h] using inv_vote r r2 sid rid emo hinv h
        | error e => simpa [h] using hinv
    | timeoutClose =>
        cases h : r.voteTimeoutClose with
        | ok r2 => simpa [h] using inv_close r r2 h
        | error e => simpa [h] using hinv
    | leave sid =>
        cases h : r.leave sid with
        | ok r2 => simpa [h] using inv_leave r r2 sid hinv h
        | error e => simpa [h] using hinv
    | restart sid =>
        cases h : r.restartGame sid with
        | ok r2 => simpa [h] using inv_restart r r2 sid h
        | error e => simpa [h] using hinv
    | setConfig sid cfg =>
        cases h : r.updateConfig sid cfg with
        | ok r2 => simpa [h] using inv_config r r2 sid cfg hinv h
        | error e => simpa [h] using hinv
  refine ⟨?_, hstep, ?_⟩
  · intro roomId cfg
    simp [roomInv, initialRoom]
  · intro roomId cfg r hreach
    induction hreach with
    | init => simp [roomInv, initialRoom]
    | step r op hr ih => exact hstep r op ih

/-- C2 witness: the coupling holds after joining a fresh room. -/
theorem phase_round_coupling_witness :
    roomInv ((initialRoom "room1" demoConfig).applyOp
      (RoomOp.join "Alice" "s1")).1 :=
  phase_round_coupling.2.1 (initialRoom "room1" demoConfig)
    (RoomOp.join "Alice" "s1") (phase_round_coupling.1 "room1" demoConfig)

/-- C1 witness: two rounds that differ only in the target emotion broadcast
the same public round_start. -/
theorem speaker_emotion_unicast_only_witness :
    (startRoundEmissions demoRound "Alice").filter
        (fun te => te.1 = SocketTarget.broadcast) =
      (startRoundEmissions demoRoundAnger "Alice").filter
        (fun te => te.1 = SocketTarget.broadcast) :=
  speaker_emotion_unicast_only.1 demoRound demoRoundAnger "Alice" rfl rfl rfl rfl

end EmoGuchi
